import Mathlib

set_option synthInstance.maxSize 1024
set_option maxRecDepth 100000

/-!
Verification of the food-ordering backend's document-store access layer
(`database.py`) and the order pricing / status-update handlers (`main.py`),
as a shallow embedding in Lean 4.

Modelling conventions:
* floats are represented by their exact rational value, with explicit
  IEEE-754 binary64 rounding (`fl64`) where the Python code performs
  float arithmetic;
* `datetime` values are integer timestamps;
* BSON ObjectIds are their 96-bit numeric value (`Nat`), encoded
  externally as 24 lowercase hex characters;
* the MongoDB driver (an external collaborator, specified only at its
  interface boundary) is modelled by list-based collections with
  first-match query semantics, `$set` field-merge and modified/deleted
  count feedback.

The only composite BSON value the verified handlers ever store is an
order's list of cart lines, so document values carry that case as a
specialized constructor (`vitems`) rather than general nesting.
-/

/-! ## Exact rational numbers for the float model

`Frac` is an exact (unnormalized) fraction with a positive denominator
maintained by construction.  All arithmetic is by plain integer
cross-multiplication, so every operation reduces in the kernel. -/

structure Frac where
  num : Int
  den : Int
  deriving DecidableEq, Repr

namespace Frac

def ofInt (n : Int) : Frac := ⟨n, 1⟩

def add (a b : Frac) : Frac := ⟨a.num * b.den + b.num * a.den, a.den * b.den⟩

def mul (a b : Frac) : Frac := ⟨a.num * b.num, a.den * b.den⟩

def neg (a : Frac) : Frac := ⟨-a.num, a.den⟩

def sub (a b : Frac) : Frac := add a (neg b)

/-- Reciprocal, keeping the denominator positive (`inv 0 = 0`). -/
def inv (a : Frac) : Frac :=
  if a.num = 0 then ⟨0, 1⟩
  else if a.num < 0 then ⟨-a.den, -a.num⟩ else ⟨a.den, a.num⟩

def div (a b : Frac) : Frac := mul a (inv b)

/-- Value equality (cross-multiplication; denominators are positive). -/
def eqv (a b : Frac) : Prop := a.num * b.den = b.num * a.den

instance (a b : Frac) : Decidable (eqv a b) :=
  inferInstanceAs (Decidable (_ = _))

def le (a b : Frac) : Bool := a.num * b.den ≤ b.num * a.den

def lt (a b : Frac) : Bool := a.num * b.den < b.num * a.den

/-- Floor (denominators are positive, so `Int.fdiv` is the floor). -/
def floor (a : Frac) : Int := a.num.fdiv a.den

end Frac

/-- A cart line as captured in an order (mirrors `CartItem` in `main.py`):
`item_id`, `title`, `price` (float, exact rational value), `quantity`,
optional `image_url`. -/
structure CartItem where
  item_id : String
  title : String
  price : Frac
  quantity : Int
  image_url : Option String
  deriving DecidableEq, Repr

/-- A BSON-like stored value. -/
inductive Value : Type where
  | vnull : Value
  | vbool : Bool → Value
  | vint : Int → Value
  | vnum : Frac → Value
  | vstr : String → Value
  | void : Nat → Value
  | vdate : Int → Value
  | vitems : List CartItem → Value
  deriving DecidableEq, Repr

/-- A stored document: ordered field list (Python dict / BSON document). -/
abbrev Document := List (String × Value)

/-- The database: collection name ↦ documents in insertion (natural) order. -/
abbrev Store := List (String × List Document)

def getField (d : Document) (k : String) : Option Value :=
  (d.find? (fun e => e.1 = k)).map (fun e => e.2)

/-- Set key `k` to `v`: replace the value at the first occurrence of `k`,
or append `(k, v)` (Python dict item assignment / Mongo field write). -/
def setField (d : Document) (k : String) (v : Value) : Document :=
  match d with
  | [] => [(k, v)]
  | e :: es => if e.1 = k then (k, v) :: es else e :: setField es k v

/-- Apply a `$set` document: merge the supplied fields left to right. -/
def applySet (d : Document) (fs : List (String × Value)) : Document :=
  fs.foldl (fun acc e => setField acc e.1 e.2) d

def collOf (s : Store) (c : String) : List Document :=
  ((s.find? (fun e => e.1 = c)).map (fun e => e.2)).getD []

/-- Write back a collection's document list (created on first write,
as Mongo creates collections lazily). -/
def setColl (s : Store) (c : String) (l : List Document) : Store :=
  match s with
  | [] => [(c, l)]
  | e :: es => if e.1 = c then (c, l) :: es else e :: setColl es c l

/-! ## Identifier codec (bson `ObjectId` ↔ 24-character hex string) -/

/-- Lowercase hex digit character for `n < 16` (as produced by `str(ObjectId)`). -/
def hexDigitChar (n : Nat) : Char :=
  if n < 10 then Char.ofNat (48 + n) else Char.ofNat (87 + n)

/-- Value of a hex character; `bytes.fromhex` (hence `ObjectId`) accepts
both lowercase and uppercase digits. -/
def hexCharVal (c : Char) : Option Nat :=
  if '0' ≤ c ∧ c ≤ '9' then some (c.toNat - 48)
  else if 'a' ≤ c ∧ c ≤ 'f' then some (c.toNat - 87)
  else if 'A' ≤ c ∧ c ≤ 'F' then some (c.toNat - 55)
  else none

/-- The big-endian base-16 digits (lowest `k` of them) of `n`. -/
def hexDigits (k n : Nat) : List Nat :=
  (List.range k).map (fun i => n / 16 ^ (k - 1 - i) % 16)

/-- Encoding `str(ObjectId)`: the 24-character lowercase hex form of a native id. -/
def encodeOid (n : Nat) : String :=
  ⟨(hexDigits 24 n).map hexDigitChar⟩

/-- Decoding `ObjectId(s)`: succeeds exactly on 24-character hex strings, returning
the native 96-bit id; anything else raises `InvalidId`. -/
def decodeOid (s : String) : Option Nat :=
  if s.length = 24 ∧ s.data.all (fun c => (hexCharVal c).isSome) then
    some (s.data.foldl (fun a c => a * 16 + ((hexCharVal c).getD 0)) 0)
  else none

/-! ## Driver boundary (external collaborator, modelled per its interface):
first-match semantics on the natural order, `$set` merge, and
modified/deleted count feedback. -/

def idMatches (o : Nat) (d : Document) : Bool :=
  getField d "_id" = some (.void o)

/-- Driver `find_one` on an id filter: first document in natural order with that id. -/
def findOneList (o : Nat) : List Document → Option Document
  | [] => none
  | d :: ds => if idMatches o d then some d else findOneList o ds

/-- Driver `update_one` with a `$set` document on a document list: merge `fs`
into the first match; the returned count is `modified_count`, which is 0
when the merge leaves the document unchanged (matched but not modified). -/
def updateOneList (o : Nat) (fs : List (String × Value)) :
    List Document → List Document × Nat
  | [] => ([], 0)
  | d :: ds =>
    if idMatches o d then
      let m := applySet d fs
      (m :: ds, if m = d then 0 else 1)
    else
      let r := updateOneList o fs ds
      (d :: r.1, r.2)

/-- Driver `delete_one` on an id filter: remove the first match; count is `deleted_count`. -/
def deleteOneList (o : Nat) : List Document → List Document × Nat
  | [] => ([], 0)
  | d :: ds =>
    if idMatches o d then (ds, 1)
    else
      let r := deleteOneList o ds
      (d :: r.1, r.2)

/-- Driver `insert_one`: append in natural order, the server storing `_id` first. -/
def insertOne (s : Store) (c : String) (o : Nat) (payload : Document) : Store :=
  setColl s c (collOf s c ++ [("_id", .void o) :: payload])

/-- Equality-predicate subset of the driver's filter language (the only
part the verified properties depend on; the boundary spec guarantees
field-level predicates including equality). -/
def matchesFilter (filt : List (String × Value)) (d : Document) : Bool :=
  filt.all (fun e => getField d e.1 = some e.2)

def Value.ctorIdx : Value → Nat
  | .vnull => 0
  | .vbool _ => 1
  | .vint _ => 2
  | .vnum _ => 3
  | .vstr _ => 4
  | .void _ => 5
  | .vdate _ => 6
  | .vitems _ => 7

/-- Total comparison on scalar values backing the driver's sort; composite
and cross-type comparisons are ordered by constructor index (a fixed,
deterministic boundary model — no verified property depends on it). -/
def valueLe (a b : Value) : Bool :=
  match a, b with
  | .vint x, .vint y => x ≤ y
  | .vnum x, .vnum y => x.le y
  | .vint x, .vnum y => (Frac.ofInt x).le y
  | .vnum x, .vint y => x.le (Frac.ofInt y)
  | .vstr x, .vstr y => x ≤ y
  | .vbool x, .vbool y => x ≤ y
  | .vdate x, .vdate y => x ≤ y
  | .void x, .void y => x ≤ y
  | x, y => x.ctorIdx ≤ y.ctorIdx

def docLe (spec : List (String × Int)) (d₁ d₂ : Document) : Bool :=
  match spec with
  | [] => true
  | (k, dir) :: rest =>
    let v₁ := (getField d₁ k).getD .vnull
    let v₂ := (getField d₂ k).getD .vnull
    if v₁ = v₂ then docLe rest d₁ d₂
    else if dir ≥ 0 then valueLe v₁ v₂ else valueLe v₂ v₁

/-- Stable insertion used by the driver's sort. -/
def insertSorted (le : Document → Document → Bool) (x : Document) :
    List Document → List Document
  | [] => [x]
  | y :: ys => if le x y then x :: y :: ys else y :: insertSorted le x ys

/-- Driver `cursor.sort(spec)`: stable sort by the (field, direction) pairs. -/
def sortDocs (spec : List (String × Int)) (docs : List Document) : List Document :=
  docs.foldr (insertSorted (docLe spec)) []

example : setField [("a", .vint 1), ("b", .vint 2)] "b" (.vint 9)
    = [("a", .vint 1), ("b", .vint 9)] := by decide

example : getField (setField [] "x" .vnull) "x" = some .vnull := by decide

example : decodeOid "0123456789abcdef01234567" = some 0x0123456789abcdef01234567 := by decide

example : decodeOid "zzz" = none := by decide

example : encodeOid 0x0123456789abcdef01234567 = "0123456789abcdef01234567" := by decide

/-! ## `database.py`: CRUD helpers

Each helper takes the availability of the module-level `db` handle
(`avail`, the `db is None` fail-fast guard in `_ensure_db`), the current
UTC instant (`now`) where the code calls `datetime.now(timezone.utc)`,
and the freshly generated ObjectId (`newOid`) where the driver assigns
one.  Exceptions propagating to the caller are the `error` branch. -/

/-- Python exceptions the store helpers can raise. -/
inductive PyErr : Type where
  | storeUnavailable : PyErr
  | invalidId : PyErr
  deriving DecidableEq, Repr

instance {ε : Type _} {α : Type _} [DecidableEq ε] [DecidableEq α] :
    DecidableEq (Except ε α) := fun a b =>
  match a, b with
  | .ok x, .ok y =>
    if h : x = y then isTrue (by rw [h])
    else isFalse (by intro hh; cases hh; exact h rfl)
  | .error x, .error y =>
    if h : x = y then isTrue (by rw [h])
    else isFalse (by intro hh; cases hh; exact h rfl)
  | .ok _, .error _ => isFalse (by intro hh; cases hh)
  | .error _, .ok _ => isFalse (by intro hh; cases hh)

/-- Source `serialize_doc`: copy the document, converting `_id` to its string form. -/
def serializeDoc (d : Document) : Document :=
  d.map (fun e =>
    if e.1 = "_id" then
      (e.1, match e.2 with
            | .void n => .vstr (encodeOid n)
            | v => v)
    else e)

/-- Source `create_document`: stamp `created_at`/`updated_at` to the same instant,
insert, and return the encoded identifier of the new record. -/
def createDocument (c : String) (payload : Document) (avail : Bool)
    (now : Int) (newOid : Nat) (s : Store) : Except PyErr (Store × String) :=
  if !avail then .error .storeUnavailable
  else
    let p := setField (setField payload "created_at" (.vdate now))
               "updated_at" (.vdate now)
    .ok (insertOne s c newOid p, encodeOid newOid)

/-- Source `get_documents`: filter (`filter_dict or {}`), optional sort, optional
limit; both `sort` and `limit` are applied only when truthy in Python, so
`limit = 0` and an empty sort list are skipped.  A negative limit is the
driver's "return that many and close the cursor".  Results are serialized. -/
def getDocuments (c : String) (filt : Option (List (String × Value)))
    (limit : Option Int) (sort : Option (List (String × Int))) (avail : Bool)
    (s : Store) : Except PyErr (List Document) :=
  if !avail then .error .storeUnavailable
  else
    let docs := (collOf s c).filter (matchesFilter (filt.getD []))
    let docs := match sort with
                | some srt => if srt ≠ [] then sortDocs srt docs else docs
                | none => docs
    let docs := match limit with
                | some l => if l ≠ 0 then docs.take l.natAbs else docs
                | none => docs
    .ok (docs.map serializeDoc)

/-- Source `get_document_by_id`: decode the identifier and look the record up;
every exception inside the lookup (in particular `InvalidId` from the
`ObjectId` constructor) is caught and folded into `None`.  The falsy-document
guard of the source is kept verbatim. -/
def getDocumentById (c : String) (idStr : String) (avail : Bool) (s : Store) :
    Except PyErr (Option Document) :=
  if !avail then .error .storeUnavailable
  else
    match decodeOid idStr with
    | none => .ok none
    | some o =>
      match findOneList o (collOf s c) with
      | none => .ok none
      | some d => .ok (if d = [] then none else some (serializeDoc d))

/-- Source `update_document`: decode the identifier (`InvalidId` propagates),
build the `$set` payload with `updated_at` forcibly overwritten to `now`,
run `update_one`, and report `modified_count > 0`. -/
def updateDocument (c : String) (idStr : String) (upd : List (String × Value))
    (avail : Bool) (now : Int) (s : Store) : Except PyErr (Store × Bool) :=
  if !avail then .error .storeUnavailable
  else
    match decodeOid idStr with
    | none => .error .invalidId
    | some o =>
      let fs := setField upd "updated_at" (.vdate now)
      let r := updateOneList o fs (collOf s c)
      .ok (setColl s c r.1, r.2 > 0)

/-- Source `delete_document`: decode the identifier (`InvalidId` propagates),
run `delete_one`, and report `deleted_count > 0`. -/
def deleteDocument (c : String) (idStr : String) (avail : Bool) (s : Store) :
    Except PyErr (Store × Bool) :=
  if !avail then .error .storeUnavailable
  else
    match decodeOid idStr with
    | none => .error .invalidId
    | some o =>
      let r := deleteOneList o (collOf s c)
      .ok (setColl s c r.1, r.2 > 0)

/-! ## Exact model of Python float arithmetic for the pricing engine

A finite binary64 value is represented by its exact rational value.
`fl64` rounds an exact rational result to the nearest representable
double (53-bit significand, round-to-nearest ties-to-even; the values
arising here are all in the normal range, so exponent bounds never
bind).  `pyRound2` is CPython's correctly-rounded `round(x, 2)`: the
exact value of the float is rounded to the nearest multiple of 1/100
(ties-to-even; a binary64 value is never an exact tie at two decimal
places), and the result is converted back to the nearest double. -/

/-- Number of binary digits of `n` (`0` for `0`); fuel-based so that it
reduces in the kernel, with fuel far beyond any magnitude arising here. -/
def bitLenAux : Nat → Nat → Nat
  | 0, _ => 0
  | fuel + 1, n => if n = 0 then 0 else bitLenAux fuel (n / 2) + 1

def bitLen (n : Nat) : Nat := bitLenAux 4096 n

/-- Computes `⌊log₂ q⌋` for `q > 0`, via integer digit lengths with a fix-up step. -/
def ilog2Pos (q : Frac) : Int :=
  let l0 : Int := (bitLen q.num.natAbs : Int) - (bitLen q.den.natAbs : Int)
  if ¬ le2pow l0 q then l0 - 1
  else if le2pow (l0 + 1) q then l0 + 1
  else l0
where
  /-- decides `2 ^ l ≤ q` by cross-multiplied integer comparison -/
  le2pow (l : Int) (q : Frac) : Bool :=
    if 0 ≤ l then q.den * (2 ^ l.toNat) ≤ q.num
    else q.den ≤ q.num * (2 ^ (-l).toNat)

/-- Round a rational to the nearest integer, ties to even. -/
def rne (q : Frac) : Int :=
  let f := q.floor
  let r := q.sub (.ofInt f)
  if r.lt ⟨1, 2⟩ then f
  else if Frac.lt ⟨1, 2⟩ r then f + 1
  else if f % 2 = 0 then f else f + 1

/-- Round a positive rational to 53 significant binary digits. -/
def flPos (q : Frac) : Frac :=
  let e : Int := ilog2Pos q - 52
  if 0 ≤ e then
    ⟨rne (q.div ⟨2 ^ e.toNat, 1⟩) * 2 ^ e.toNat, 1⟩
  else
    ⟨rne (q.mul ⟨2 ^ (-e).toNat, 1⟩), 2 ^ (-e).toNat⟩

/-- Round an exact rational to the nearest binary64 value. -/
def fl64 (q : Frac) : Frac :=
  if q.num = 0 then ⟨0, 1⟩
  else if 0 < q.num then flPos q else (flPos q.neg).neg

/-- CPython `round(x, 2)` on a float with exact value `x`. -/
def pyRound2 (x : Frac) : Frac :=
  fl64 ⟨rne (x.mul ⟨100, 1⟩), 100⟩

example : (fl64 ⟨1, 10⟩).eqv ⟨3602879701896397, 36028797018963968⟩ := by decide

example : (fl64 ⟨8, 100⟩).eqv ⟨5764607523034235, 72057594037927936⟩ := by decide

example : (fl64 ⟨5, 2⟩).eqv ⟨5, 2⟩ := by decide

example : (pyRound2 (fl64 ((Frac.mk 3 16).mul (fl64 ⟨8, 100⟩)))).eqv (fl64 ⟨1, 100⟩) := by
  decide

/-! ## `main.py`: order pricing and lifecycle handlers -/

/-- The five order statuses of `schemas.Order` (`Literal[...]`). -/
def orderStatusValues : List String :=
  ["pending", "preparing", "ready", "completed", "cancelled"]

/-- Request model `CreateOrderRequest` (validated request body of `POST /orders`). -/
structure CreateOrderRequest where
  user_id : Option String
  items : List CartItem
  notes : Option String
  contact_email : Option String
  contact_phone : Option String
  pickup_name : Option String
  deriving DecidableEq, Repr

/-- Request model `UpdateOrderStatusRequest`: its single field `status` is declared as a
plain `str`, with no constraint relating it to `orderStatusValues`. -/
structure UpdateOrderStatusRequest where
  status : String
  deriving DecidableEq, Repr

/-- Request-body validation of `UpdateOrderStatusRequest`: the JSON body
must carry a string field `status`; any string is accepted. -/
def parseUpdateOrderStatusRequest (body : Document) :
    Option UpdateOrderStatusRequest :=
  match getField body "status" with
  | some (.vstr s) => some ⟨s⟩
  | _ => none

/-- Errors surfaced by the handlers: `HTTPException(code, detail)` or a
propagated store-layer exception. -/
inductive HandlerErr : Type where
  | http : Nat → String → HandlerErr
  | py : PyErr → HandlerErr
  deriving DecidableEq, Repr

/-- Source `subtotal = sum(i.price * i.quantity for i in payload.items)`:
a left fold of binary64 additions over the binary64 line products,
starting from (integer, hence exact) 0. -/
def subtotalOf (items : List CartItem) : Frac :=
  items.foldl (fun a i => fl64 (a.add (fl64 (i.price.mul (.ofInt i.quantity))))) ⟨0, 1⟩

/-- Source `tax = round(subtotal * 0.08, 2)` in float arithmetic (`0.08` itself
being the nearest double). -/
def taxOf (subtotal : Frac) : Frac :=
  pyRound2 (fl64 (subtotal.mul (fl64 ⟨8, 100⟩)))

/-- Source `total = round(subtotal + tax, 2)` in float arithmetic. -/
def totalOf (subtotal tax : Frac) : Frac :=
  pyRound2 (fl64 (subtotal.add tax))

/-- Order number tag, the source building it from the last six hex characters
of a freshly generated ObjectId, uppercased, behind a fixed prefix. -/
def orderNumber (numOid : Nat) : String :=
  "ORD-" ++ ((encodeOid numOid).drop 18).toUpper

def optStr : Option String → Value
  | none => .vnull
  | some s => .vstr s

/-- The `Order` payload as `model_dump` serializes it (field order of
`schemas.Order`; `status` takes its declared default `"pending"`). -/
def orderDoc (req : CreateOrderRequest) (onum : String)
    (subtotal tax total : Frac) : Document :=
  [("user_id", optStr req.user_id),
   ("order_number", .vstr onum),
   ("items", .vitems req.items),
   ("subtotal", .vnum subtotal),
   ("tax", .vnum tax),
   ("total", .vnum total),
   ("status", .vstr "pending"),
   ("notes", optStr req.notes),
   ("contact_email", optStr req.contact_email),
   ("contact_phone", optStr req.contact_phone),
   ("pickup_name", optStr req.pickup_name)]

/-- Response body of `POST /orders`. -/
structure CreateOrderResp where
  id : String
  order_number : String
  total : Frac
  deriving DecidableEq, Repr

/-- Handler of POST /orders (`create_order`): reject an empty cart with
`HTTPException(400, "Cart is empty")` before any computation; otherwise
price the cart, generate the order number from a fresh ObjectId
(`numOid`), build the order payload and persist it (`newOid` being the
id the driver assigns).  The first component of the result is the store
after the call; on every error path it is the unchanged input store. -/
def createOrder (req : CreateOrderRequest) (avail : Bool) (s : Store)
    (now : Int) (numOid newOid : Nat) :
    Store × Except HandlerErr CreateOrderResp :=
  if req.items = [] then (s, .error (.http 400 "Cart is empty"))
  else
    let subtotal := subtotalOf req.items
    let tax := taxOf subtotal
    let total := totalOf subtotal tax
    let onum := orderNumber numOid
    match createDocument "order" (orderDoc req onum subtotal tax total)
        avail now newOid s with
    | .error e => (s, .error (.py e))
    | .ok (s', idStr) => (s', .ok ⟨idStr, onum, total⟩)

/-- Handler of the admin order-status route (`update_order_status`): pass
the raw status straight to `update_document`; 404 when it reports no
modified record.  The first component is the store after the call. -/
def updateOrderStatus (orderId : String) (req : UpdateOrderStatusRequest)
    (avail : Bool) (s : Store) (now : Int) : Store × Except HandlerErr Unit :=
  match updateDocument "order" orderId [("status", .vstr req.status)] avail now s with
  | .error e => (s, .error (.py e))
  | .ok (s', ok) =>
    if ok then (s', .ok ()) else (s', .error (.http 404 "Order not found"))

/-! ## Definitions following the specification's words (for comparison
with the code-derived definitions above) -/

/-- Modelled from the spec: `subtotal = Σ(price × quantity)` read as exact
arithmetic over the cart lines. -/
def specSubtotal (items : List CartItem) : Frac :=
  items.foldl (fun a i => a.add (i.price.mul (.ofInt i.quantity))) ⟨0, 1⟩

/-- Modelled from the spec: "standard half-up decimal rounding to 2
fractional digits", i.e. `⌊100·x + 1/2⌋ / 100` (for the non-negative
amounts at issue). -/
def roundHalfUp2 (x : Frac) : Frac :=
  ⟨((x.mul ⟨100, 1⟩).add ⟨1, 2⟩).floor, 100⟩

/-- Modelled from the spec: `tax = round(subtotal * 0.08, 2)` under
half-up decimal rounding. -/
def specTax (subtotal : Frac) : Frac :=
  roundHalfUp2 (subtotal.mul ⟨8, 100⟩)

/-- Modelled from the spec: `total = round(subtotal + tax, 2)` under
half-up decimal rounding. -/
def specTotal (subtotal tax : Frac) : Frac :=
  roundHalfUp2 (subtotal.add tax)

/-! ## Supporting lemmas: identifier codec round trip -/

theorem hexCharVal_hexDigitChar : ∀ d : Nat, d < 16 →
    hexCharVal (hexDigitChar d) = some d := by decide

theorem foldl_hexDigits (k : Nat) : ∀ (n a : Nat),
    (hexDigits k n).foldl (fun acc d => acc * 16 + d) a = a * 16 ^ k + n % 16 ^ k := by
  induction k with
  | zero => intro n a; simp [hexDigits, Nat.mod_one]
  | succ k ih =>
    intro n a
    have htail : (List.range k).map
          ((fun i => n / 16 ^ (k + 1 - 1 - i) % 16) ∘ Nat.succ)
        = hexDigits k n := by
      apply List.map_congr_left
      intro i _
      have h2 : k + 1 - 1 - Nat.succ i = k - 1 - i := by omega
      simp only [Function.comp_apply]
      rw [h2]
    rw [hexDigits, List.range_succ_eq_map, List.map_cons, List.foldl_cons,
      List.map_map, htail]
    rw [ih n (a * 16 + n / 16 ^ (k + 1 - 1 - 0) % 16)]
    have hsplit : n % 16 ^ (k + 1) = n % 16 ^ k + 16 ^ k * (n / 16 ^ k % 16) := by
      rw [pow_succ]
      exact Nat.mod_mul
    simp only [Nat.add_sub_cancel, Nat.sub_zero]
    rw [hsplit, pow_succ]
    ring

theorem decodeOid_encodeOid (n : Nat) (h : n < 16 ^ 24) :
    decodeOid (encodeOid n) = some n := by
  have hmem : ∀ d ∈ hexDigits 24 n, d < 16 := by
    intro d hd
    simp only [hexDigits, List.mem_map] at hd
    obtain ⟨i, _, rfl⟩ := hd
    exact Nat.mod_lt _ (by norm_num)
  have hlen : (encodeOid n).length = 24 := by
    simp [encodeOid, String.length, hexDigits]
  have hdata : (encodeOid n).data = (hexDigits 24 n).map hexDigitChar := rfl
  have hall : (encodeOid n).data.all (fun c => (hexCharVal c).isSome) = true := by
    rw [hdata]
    simp only [List.all_eq_true]
    intro c hc
    simp only [List.mem_map] at hc
    obtain ⟨d, hd, rfl⟩ := hc
    simp [hexCharVal_hexDigitChar d (hmem d hd)]
  rw [decodeOid, if_pos ⟨hlen, hall⟩, hdata, List.foldl_map]
  have hfold : (hexDigits 24 n).foldl
      (fun a d => a * 16 + (hexCharVal (hexDigitChar d)).getD 0) 0
      = (hexDigits 24 n).foldl (fun a d => a * 16 + d) 0 := by
    apply List.foldl_ext
    intro a d hd
    rw [hexCharVal_hexDigitChar d (hmem d hd)]
    rfl
  rw [hfold, foldl_hexDigits, Nat.mod_eq_of_lt h]
  simp

/-! ## Supporting lemmas: store operations -/

theorem collOf_setColl (c : String) (l : List Document) :
    ∀ s : Store, collOf (setColl s c l) c = l := by
  intro s
  induction s with
  | nil => simp [setColl, collOf]
  | cons e es ih =>
    by_cases h : e.1 = c
    · simp [setColl, h, collOf]
    · simp only [setColl, if_neg h]
      simpa [collOf, List.find?_cons, h] using ih

theorem getField_cons (e : String × Value) (es : List (String × Value))
    (k : String) :
    getField (e :: es) k = if e.1 = k then some e.2 else getField es k := by
  simp only [getField, List.find?_cons]
  by_cases h : e.1 = k
  · simp [h]
  · simp [h]

theorem getField_setField_self (d : Document) (k : String) (v : Value) :
    getField (setField d k v) k = some v := by
  induction d with
  | nil => simp [setField, getField_cons, getField]
  | cons e es ih =>
    by_cases h : e.1 = k
    · simp [setField, h, getField_cons]
    · simp [setField, h, getField_cons, ih]

theorem getField_setField_ne (d : Document) (k' k : String) (v : Value)
    (h : k' ≠ k) : getField (setField d k' v) k = getField d k := by
  induction d with
  | nil => simp [setField, getField_cons, getField, h]
  | cons e es ih =>
    by_cases he : e.1 = k'
    · have hek : ¬ e.1 = k := by rw [he]; exact h
      simp [setField, he, getField_cons, h, hek]
    · by_cases hek : e.1 = k
      · have hkk : ¬ k = k' := fun hh => he (hek.trans hh)
        simp [setField, he, getField_cons, hek, hkk]
      · simp [setField, he, getField_cons, hek, ih]

theorem getField_applySet (k : String) : ∀ (fs : List (String × Value)) (d : Document),
    getField (applySet d fs) k =
      ((fs.reverse.find? (fun e => e.1 = k)).map (fun e => e.2)).or (getField d k) := by
  intro fs
  induction fs with
  | nil => intro d; simp [applySet]
  | cons e fs ih =>
    intro d
    have hstep : applySet d (e :: fs) = applySet (setField d e.1 e.2) fs := rfl
    rw [hstep, ih]
    rw [List.reverse_cons, List.find?_append]
    cases hfind : fs.reverse.find? (fun e => (e.1 = k : Bool)) with
    | some x => simp [Option.or]
    | none =>
      by_cases hek : e.1 = k
      · subst hek
        simp [getField_setField_self, Option.or]
      · simp [hek, getField_setField_ne d e.1 k e.2 hek, Option.or]

theorem getField_applySet_not_mem (k : String) (fs : List (String × Value))
    (d : Document) (h : ∀ e ∈ fs, e.1 ≠ k) :
    getField (applySet d fs) k = getField d k := by
  rw [getField_applySet]
  have : fs.reverse.find? (fun e => (e.1 = k : Bool)) = none := by
    rw [List.find?_eq_none]
    intro x hx
    simp [h x (List.mem_reverse.mp hx)]
  simp [this, Option.or]

theorem find?_reverse_setField (k : String) (v : Value) :
    ∀ upd : List (String × Value), (upd.map Prod.fst).Nodup →
    (setField upd k v).reverse.find? (fun e => e.1 = k) = some (k, v) := by
  intro upd
  induction upd with
  | nil => intro _; simp [setField]
  | cons e rest ih =>
    intro hnd
    simp only [List.map_cons, List.nodup_cons] at hnd
    by_cases he : e.1 = k
    · have hrest : ∀ x ∈ rest, x.1 ≠ k := by
        intro x hx hxk
        exact hnd.1 (he ▸ hxk ▸ List.mem_map.mpr ⟨x, hx, rfl⟩)
      have hnone : rest.reverse.find? (fun e => (e.1 = k : Bool)) = none := by
        rw [List.find?_eq_none]
        intro x hx
        simp [hrest x (List.mem_reverse.mp hx)]
      simp only [setField, if_pos he, List.reverse_cons, List.find?_append, hnone]
      simp
    · simp only [setField, if_neg he, List.reverse_cons, List.find?_append,
        ih hnd.2]
      simp

theorem getField_applySet_setField (d : Document) (upd : List (String × Value))
    (k : String) (v : Value) (hnd : (upd.map Prod.fst).Nodup) :
    getField (applySet d (setField upd k v)) k = some v := by
  rw [getField_applySet, find?_reverse_setField k v upd hnd]
  simp [Option.or]

theorem updateOneList_not_found (o : Nat) (fs : List (String × Value)) :
    ∀ l : List Document, findOneList o l = none → updateOneList o fs l = (l, 0) := by
  intro l
  induction l with
  | nil => intro _; rfl
  | cons d ds ih =>
    intro h
    simp only [findOneList] at h
    by_cases hm : idMatches o d
    · simp [hm] at h
    · simp only [hm] at h
      simp [updateOneList, hm, ih h]

theorem deleteOneList_not_found (o : Nat) :
    ∀ l : List Document, findOneList o l = none → deleteOneList o l = (l, 0) := by
  intro l
  induction l with
  | nil => intro _; rfl
  | cons d ds ih =>
    intro h
    simp only [findOneList] at h
    by_cases hm : idMatches o d
    · simp [hm] at h
    · simp only [hm] at h
      simp [deleteOneList, hm, ih h]

theorem updateOneList_found (o : Nat) (fs : List (String × Value)) :
    ∀ l : List Document, ∀ d, findOneList o l = some d →
    (updateOneList o fs l).2 = (if applySet d fs = d then 0 else 1) := by
  intro l
  induction l with
  | nil => intro d h; simp [findOneList] at h
  | cons d0 ds ih =>
    intro d h
    simp only [findOneList] at h
    by_cases hm : idMatches o d0
    · simp only [hm, if_pos] at h
      cases h
      simp [updateOneList, hm]
    · simp only [hm] at h
      simp [updateOneList, hm, ih d h]

theorem findOneList_updateOneList (o : Nat) (fs : List (String × Value)) :
    ∀ l : List Document, ∀ d, findOneList o l = some d →
    idMatches o (applySet d fs) = true →
    findOneList o (updateOneList o fs l).1 = some (applySet d fs) := by
  intro l
  induction l with
  | nil => intro d h _; simp [findOneList] at h
  | cons d0 ds ih =>
    intro d h hid
    by_cases hm : idMatches o d0
    · simp only [findOneList, hm, if_pos] at h
      cases h
      by_cases hch : applySet d0 fs = d0
      · simp [updateOneList, hm, hch, findOneList]
      · simp [updateOneList, hm, hch, findOneList, hid]
    · simp only [findOneList, hm] at h
      simp [updateOneList, hm, findOneList, ih d h hid]

theorem findOneList_append_singleton (o : Nat) (d : Document) :
    ∀ l : List Document, findOneList o l = none →
    findOneList o (l ++ [d]) = (if idMatches o d then some d else none) := by
  intro l
  induction l with
  | nil => intro _; simp [findOneList]
  | cons d0 ds ih =>
    intro h
    simp only [findOneList] at h
    by_cases hm : idMatches o d0
    · simp [hm] at h
    · simp only [hm] at h
      simp [findOneList, hm, ih h]

/-! ## Claim theorems -/

/-- C4: creating an order with an empty cart-line list fails with the
EmptyCart domain error (`HTTPException(400, "Cart is empty")`) before any
pricing computation, and no record is persisted: the store comes back
unchanged. -/
theorem createOrder_empty_cart_rejected (req : CreateOrderRequest)
    (avail : Bool) (s : Store) (now : Int) (numOid newOid : Nat)
    (h : req.items = []) :
    createOrder req avail s now numOid newOid
      = (s, .error (.http 400 "Cart is empty")) := by
  simp [createOrder, h]

theorem createOrder_empty_cart_rejected_witness :
    createOrder ⟨none, [], none, none, none, none⟩ true [] 0 1 2
      = ([], .error (.http 400 "Cart is empty")) :=
  createOrder_empty_cart_rejected ⟨none, [], none, none, none, none⟩ true [] 0 1 2 rfl

/-- C6: looking a record up by a syntactically invalid identifier string
returns absent (`None`) rather than raising: the `InvalidId` decode
failure is folded into the absent result. -/
theorem getDocumentById_invalid_id_absent (c idStr : String) (s : Store)
    (h : decodeOid idStr = none) :
    getDocumentById c idStr true s = .ok none := by
  simp [getDocumentById, h]

theorem getDocumentById_invalid_id_absent_witness :
    getDocumentById "order" "not-an-objectid" true [] = .ok none :=
  getDocumentById_invalid_id_absent "order" "not-an-objectid" [] (by decide)

/-- C7: an update or a delete addressed by a well-formed identifier that
matches no stored record returns `false` without raising: not-found is a
boolean result, not an exception. -/
theorem update_delete_not_found_return_false (c idStr : String)
    (upd : List (String × Value)) (now : Int) (s : Store) (o : Nat)
    (hdec : decodeOid idStr = some o)
    (hfind : findOneList o (collOf s c) = none) :
    updateDocument c idStr upd true now s
      = .ok (setColl s c (collOf s c), false) ∧
    deleteDocument c idStr true s = .ok (setColl s c (collOf s c), false) := by
  constructor
  · simp [updateDocument, hdec, updateOneList_not_found _ _ _ hfind]
  · simp [deleteDocument, hdec, deleteOneList_not_found _ _ hfind]

theorem update_delete_not_found_return_false_witness :
    updateDocument "order" (encodeOid 3) [] true 0 []
      = .ok (setColl [] "order" (collOf [] "order"), false) ∧
    deleteDocument "order" (encodeOid 3) true []
      = .ok (setColl [] "order" (collOf [] "order"), false) :=
  update_delete_not_found_return_false "order" (encodeOid 3) [] 0 [] 3
    (by decide) (by decide)

/-- C9: an update or a delete addressed by a syntactically malformed
identifier raises (the `InvalidId` decode failure propagates) instead of
returning `false`; only the lookup folds a malformed identifier into an
absent result. -/
theorem update_delete_raise_on_malformed_id (c idStr : String)
    (upd : List (String × Value)) (now : Int) (s : Store)
    (h : decodeOid idStr = none) :
    updateDocument c idStr upd true now s = .error .invalidId ∧
    deleteDocument c idStr true s = .error .invalidId := by
  constructor <;> simp [updateDocument, deleteDocument, h]

theorem update_delete_raise_on_malformed_id_witness :
    updateDocument "order" "bogus-id" [] true 0 [] = .error .invalidId ∧
    deleteDocument "order" "bogus-id" true [] = .error .invalidId :=
  update_delete_raise_on_malformed_id "order" "bogus-id" [] 0 [] (by decide)

/-- C10: querying with `limit = 0` behaves exactly like querying with no
limit at all (Python truthiness skips a zero limit), so `0` returns all
matching records rather than an empty sequence. -/
theorem getDocuments_limit_zero_returns_all (c : String)
    (filt : Option (List (String × Value))) (sort : Option (List (String × Int)))
    (avail : Bool) (s : Store) :
    getDocuments c filt (some 0) sort avail s
      = getDocuments c filt none sort avail s := by
  simp [getDocuments]

theorem mem_setField {e : String × Value} (k : String) (v : Value) :
    ∀ d : Document, e ∈ setField d k v → e ∈ d ∨ e = (k, v) := by
  intro d
  induction d with
  | nil => intro h; simp [setField] at h; right; exact h
  | cons e0 es ih =>
    intro h
    by_cases he : e0.1 = k
    · simp only [setField, if_pos he, List.mem_cons] at h
      rcases h with h | h
      · right; exact h
      · left; exact List.mem_cons_of_mem _ h
    · simp only [setField, if_neg he, List.mem_cons] at h
      rcases h with h | h
      · left; exact h ▸ List.mem_cons_self _ _
      · rcases ih h with h' | h'
        · left; exact List.mem_cons_of_mem _ h'
        · right; exact h'

theorem findOneList_some_matches (o : Nat) :
    ∀ l : List Document, ∀ d, findOneList o l = some d → idMatches o d = true := by
  intro l
  induction l with
  | nil => intro d h; simp [findOneList] at h
  | cons d0 ds ih =>
    intro d h
    by_cases hm : idMatches o d0
    · simp only [findOneList, hm, if_pos] at h
      cases h
      exact hm
    · simp only [findOneList, hm] at h
      exact ih d h

/-- C8: the identifier string returned by `create_document` decodes back
to the native key assigned internally, so an immediate lookup through
`get_document_by_id` resolves to the just-created (serialized) record. -/
theorem create_then_find_roundtrip (c : String) (payload : Document)
    (now : Int) (n : Nat) (s : Store) (hn : n < 16 ^ 24)
    (hfresh : findOneList n (collOf s c) = none) :
    ∃ s', createDocument c payload true now n s = .ok (s', encodeOid n) ∧
      getDocumentById c (encodeOid n) true s'
        = .ok (some (serializeDoc (("_id", .void n) ::
            setField (setField payload "created_at" (.vdate now))
              "updated_at" (.vdate now)))) := by
  refine ⟨_, rfl, ?_⟩
  have hid : idMatches n (("_id", .void n) ::
      setField (setField payload "created_at" (.vdate now))
        "updated_at" (.vdate now)) = true := by
    simp [idMatches, getField_cons]
  simp only [getDocumentById, createDocument, insertOne, Bool.not_true,
    Bool.false_eq_true, if_false, decodeOid_encodeOid n hn,
    collOf_setColl, findOneList_append_singleton n _ _ hfresh, hid, if_true]
  rfl

theorem create_then_find_roundtrip_witness :
    ∃ s', createDocument "category" [("name", .vstr "Drinks")] true 50 9 []
        = .ok (s', encodeOid 9) ∧
      getDocumentById "category" (encodeOid 9) true s'
        = .ok (some (serializeDoc (("_id", .void 9) ::
            setField (setField [("name", .vstr "Drinks")] "created_at" (.vdate 50))
              "updated_at" (.vdate 50)))) :=
  create_then_find_roundtrip "category" [("name", .vstr "Drinks")] 50 9 []
    (by norm_num) (by decide)

/-- C5: an update forcibly overwrites `updated_at` with the current
instant, whatever value (if any) the caller supplied for it, so — the
clock not running backwards — the record's `updated_at` never decreases,
even when no semantic field changed. -/
theorem update_overwrites_updated_at (c idStr : String)
    (upd : List (String × Value)) (now : Int) (s : Store) (o : Nat)
    (r : Document)
    (hdec : decodeOid idStr = some o)
    (hfind : findOneList o (collOf s c) = some r)
    (hnd : (upd.map Prod.fst).Nodup)
    (hid : ∀ e ∈ upd, e.1 ≠ "_id") :
    ∃ s' b, updateDocument c idStr upd true now s = .ok (s', b) ∧
      findOneList o (collOf s' c)
        = some (applySet r (setField upd "updated_at" (.vdate now))) ∧
      getField (applySet r (setField upd "updated_at" (.vdate now)))
        "updated_at" = some (.vdate now) ∧
      (∀ t₀ : Int, getField r "updated_at" = some (.vdate t₀) → t₀ ≤ now →
        ∃ t₁ : Int,
          getField (applySet r (setField upd "updated_at" (.vdate now)))
            "updated_at" = some (.vdate t₁) ∧ t₀ ≤ t₁) := by
  have hfs_id : ∀ e ∈ setField upd "updated_at" (.vdate now), e.1 ≠ "_id" := by
    intro e he
    rcases mem_setField _ _ upd he with h' | h'
    · exact hid e h'
    · rw [h']; simp
  have hr'id : getField (applySet r (setField upd "updated_at" (.vdate now)))
      "_id" = getField r "_id" :=
    getField_applySet_not_mem "_id" _ r hfs_id
  have hmatch : idMatches o
      (applySet r (setField upd "updated_at" (.vdate now))) = true := by
    have := findOneList_some_matches o (collOf s c) r hfind
    simp only [idMatches] at this ⊢
    rw [hr'id]
    exact this
  have hupd : getField (applySet r (setField upd "updated_at" (.vdate now)))
      "updated_at" = some (.vdate now) :=
    getField_applySet_setField r upd "updated_at" (.vdate now) hnd
  refine ⟨setColl s c (updateOneList o (setField upd "updated_at" (.vdate now))
      (collOf s c)).1,
    decide ((updateOneList o (setField upd "updated_at" (.vdate now))
      (collOf s c)).2 > 0), ?_, ?_, hupd, ?_⟩
  · simp [updateDocument, hdec]
  · rw [collOf_setColl]
    exact findOneList_updateOneList o _ (collOf s c) r hfind hmatch
  · intro t₀ _ ht
    exact ⟨now, hupd, ht⟩

theorem update_overwrites_updated_at_witness :
    ∃ s' b, updateDocument "category" (encodeOid 7)
        [("name", .vstr "Tea"), ("updated_at", .vdate 999)] true 120
        [("category", [[("_id", .void 7), ("name", .vstr "Tea"),
          ("updated_at", .vdate 100)]])] = .ok (s', b) ∧
      findOneList 7 (collOf s' "category")
        = some (applySet [("_id", .void 7), ("name", .vstr "Tea"),
            ("updated_at", .vdate 100)]
            (setField [("name", .vstr "Tea"), ("updated_at", .vdate 999)]
              "updated_at" (.vdate 120))) ∧
      getField (applySet [("_id", .void 7), ("name", .vstr "Tea"),
            ("updated_at", .vdate 100)]
            (setField [("name", .vstr "Tea"), ("updated_at", .vdate 999)]
              "updated_at" (.vdate 120))) "updated_at" = some (.vdate 120) ∧
      (∀ t₀ : Int, getField [("_id", .void 7), ("name", .vstr "Tea"),
            ("updated_at", .vdate 100)] "updated_at" = some (.vdate t₀) →
          t₀ ≤ 120 →
        ∃ t₁ : Int, getField (applySet [("_id", .void 7), ("name", .vstr "Tea"),
            ("updated_at", .vdate 100)]
            (setField [("name", .vstr "Tea"), ("updated_at", .vdate 999)]
              "updated_at" (.vdate 120))) "updated_at" = some (.vdate t₁) ∧
          t₀ ≤ t₁) :=
  update_overwrites_updated_at "category" (encodeOid 7)
    [("name", .vstr "Tea"), ("updated_at", .vdate 999)] 120
    [("category", [[("_id", .void 7), ("name", .vstr "Tea"),
      ("updated_at", .vdate 100)]])] 7
    [("_id", .void 7), ("name", .vstr "Tea"), ("updated_at", .vdate 100)]
    (by decide) (by decide) (by decide) (by decide)

/-- C3 counterexample: a record matching the identifier exists and the
write is attempted, yet `update_document` returns `false`: the payload
repeats the record's current field values and the restamped `updated_at`
equals the stored one (an update at the very instant of the previous
write), so the driver reports `modified_count = 0`. -/
theorem update_identical_payload_can_return_false :
    findOneList 7 (collOf [("category", [[("_id", .void 7),
        ("name", .vstr "Salads"), ("updated_at", .vdate 100)]])] "category")
      = some [("_id", .void 7), ("name", .vstr "Salads"),
        ("updated_at", .vdate 100)] ∧
    updateDocument "category" (encodeOid 7) [("name", .vstr "Salads")] true 100
        [("category", [[("_id", .void 7), ("name", .vstr "Salads"),
          ("updated_at", .vdate 100)]])]
      = .ok ([("category", [[("_id", .void 7), ("name", .vstr "Salads"),
          ("updated_at", .vdate 100)]])], false) := by
  constructor
  · decide
  · decide

/-- C3 (amended): `update_document` returns `true` iff a record matching
the identifier existed and the attempted write actually changed the
stored document (`modified_count > 0`); because `updated_at` is
restamped, a payload identical to the current field values still yields
`true` whenever the restamped instant differs from the stored
`updated_at`, and yields `false` exactly when the merged document is
unchanged. -/
theorem update_returns_true_iff_write_changed (c idStr : String)
    (upd : List (String × Value)) (now : Int) (s : Store) (o : Nat)
    (r : Document)
    (hdec : decodeOid idStr = some o)
    (hfind : findOneList o (collOf s c) = some r) :
    ∃ s' b, updateDocument c idStr upd true now s = .ok (s', b) ∧
      (b = true ↔
        applySet r (setField upd "updated_at" (.vdate now)) ≠ r) := by
  refine ⟨setColl s c (updateOneList o (setField upd "updated_at" (.vdate now))
      (collOf s c)).1,
    decide ((updateOneList o (setField upd "updated_at" (.vdate now))
      (collOf s c)).2 > 0), ?_, ?_⟩
  · simp [updateDocument, hdec]
  · rw [updateOneList_found o _ (collOf s c) r hfind]
    by_cases hch : applySet r (setField upd "updated_at" (.vdate now)) = r
    · simp [hch]
    · simp [hch]

theorem update_returns_true_iff_write_changed_witness :
    ∃ s' b, updateDocument "category" (encodeOid 7) [("name", .vstr "Salads")]
        true 200 [("category", [[("_id", .void 7), ("name", .vstr "Salads"),
          ("updated_at", .vdate 100)]])] = .ok (s', b) ∧
      (b = true ↔
        applySet [("_id", .void 7), ("name", .vstr "Salads"),
            ("updated_at", .vdate 100)]
          (setField [("name", .vstr "Salads")] "updated_at" (.vdate 200))
          ≠ [("_id", .void 7), ("name", .vstr "Salads"),
            ("updated_at", .vdate 100)]) :=
  update_returns_true_iff_write_changed "category" (encodeOid 7)
    [("name", .vstr "Salads")] 200
    [("category", [[("_id", .void 7), ("name", .vstr "Salads"),
      ("updated_at", .vdate 100)]])] 7
    [("_id", .void 7), ("name", .vstr "Salads"), ("updated_at", .vdate 100)]
    (by decide) (by decide)

/-- C2: evaluation at the failing input: the status-update request model
accepts the string "bogus", a value outside the five-status enumeration
of the order schema, and the handler passes it to the store, which
stores it — no validation failure occurs before the store call. -/
theorem status_update_accepts_and_stores_non_enum_value :
    parseUpdateOrderStatusRequest [("status", .vstr "bogus")] = some ⟨"bogus"⟩ ∧
    "bogus" ∉ orderStatusValues ∧
    updateOrderStatus (encodeOid 5) ⟨"bogus"⟩ true
        [("order", [[("_id", .void 5), ("status", .vstr "pending"),
          ("updated_at", .vdate 10)]])] 11
      = ([("order", [[("_id", .void 5), ("status", .vstr "bogus"),
          ("updated_at", .vdate 11)]])], .ok ()) :=
  ⟨by decide, by decide, by decide⟩

/-- The specification's example cart: price 2.50 × 3 and price 1.33 × 2,
prices being the doubles the JSON floats parse to. -/
def exampleCart : List CartItem :=
  [⟨"a", "Item A", fl64 ⟨5, 2⟩, 3, none⟩,
   ⟨"b", "Item B", fl64 ⟨133, 100⟩, 2, none⟩]

/-- C1 counterexample: on the one-line cart with price 0.1875 (exactly
representable) and quantity 1, the code and the spec agree on the
subtotal, but the code's tax (Python's float `round`, applied to the
binary64 product) is the double 0.01 while half-up decimal rounding of
`subtotal * 0.08 = 0.015` prescribes 0.02 — the code does not use
half-up decimal rounding. -/
theorem pricing_rounding_differs_from_half_up :
    (subtotalOf [⟨"i1", "Wings", ⟨3, 16⟩, 1, none⟩]).eqv
        (specSubtotal [⟨"i1", "Wings", ⟨3, 16⟩, 1, none⟩]) ∧
    ¬ (taxOf (subtotalOf [⟨"i1", "Wings", ⟨3, 16⟩, 1, none⟩])).eqv
        (specTax (specSubtotal [⟨"i1", "Wings", ⟨3, 16⟩, 1, none⟩])) :=
  ⟨by decide, by decide⟩

/-- C1 (amended): for every non-empty cart, order creation derives all
three money fields server-side in binary64 float arithmetic — subtotal
is the float sum of the line products, `tax = round(subtotal * 0.08, 2)`
and `total = round(subtotal + tax, 2)` with CPython's correctly-rounded
float `round` (nearest multiple of 1/100 of the exact binary value, not
half-up decimal rounding) — persisting and returning exactly those
derived values; in particular the example cart
`[(2.50, 3), (1.33, 2)]` yields the doubles 10.16, 0.81 and 10.97. -/
theorem createOrder_computes_prices_in_binary64 :
    (∀ (req : CreateOrderRequest) (s : Store) (now : Int) (numOid newOid : Nat),
      req.items ≠ [] →
      createOrder req true s now numOid newOid
        = (insertOne s "order" newOid
            (setField (setField (orderDoc req (orderNumber numOid)
                (subtotalOf req.items) (taxOf (subtotalOf req.items))
                (totalOf (subtotalOf req.items) (taxOf (subtotalOf req.items))))
              "created_at" (.vdate now)) "updated_at" (.vdate now)),
           .ok ⟨encodeOid newOid, orderNumber numOid,
             totalOf (subtotalOf req.items) (taxOf (subtotalOf req.items))⟩)) ∧
    ((subtotalOf exampleCart).eqv (fl64 ⟨1016, 100⟩) ∧
     (taxOf (subtotalOf exampleCart)).eqv (fl64 ⟨81, 100⟩) ∧
     (totalOf (subtotalOf exampleCart) (taxOf (subtotalOf exampleCart))).eqv
       (fl64 ⟨1097, 100⟩)) := by
  constructor
  · intro req s now numOid newOid h
    simp [createOrder, h, createDocument]
  · exact ⟨by decide, by decide, by decide⟩

theorem createOrder_computes_prices_in_binary64_witness :
    createOrder ⟨none, [⟨"a", "Item A", ⟨5, 2⟩, 3, none⟩], none, none, none,
        none⟩ true [] 0 1 2
      = (insertOne [] "order" 2
          (setField (setField (orderDoc ⟨none, [⟨"a", "Item A", ⟨5, 2⟩, 3,
              none⟩], none, none, none, none⟩ (orderNumber 1)
              (subtotalOf [⟨"a", "Item A", ⟨5, 2⟩, 3, none⟩])
              (taxOf (subtotalOf [⟨"a", "Item A", ⟨5, 2⟩, 3, none⟩]))
              (totalOf (subtotalOf [⟨"a", "Item A", ⟨5, 2⟩, 3, none⟩])
                (taxOf (subtotalOf [⟨"a", "Item A", ⟨5, 2⟩, 3, none⟩]))))
            "created_at" (.vdate 0)) "updated_at" (.vdate 0)),
         .ok ⟨encodeOid 2, orderNumber 1,
           totalOf (subtotalOf [⟨"a", "Item A", ⟨5, 2⟩, 3, none⟩])
             (taxOf (subtotalOf [⟨"a", "Item A", ⟨5, 2⟩, 3, none⟩]))⟩) :=
  createOrder_computes_prices_in_binary64.1
    ⟨none, [⟨"a", "Item A", ⟨5, 2⟩, 3, none⟩], none, none, none, none⟩
    [] 0 1 2 (by decide)
